import Mathlib

/-!
Shallow embedding of the AACT worker-pool engine
(`src/bot_manager.py`, `src/bot_conductor.py`, `src/phoenix_bot.py`).

Modelling conventions:
- Tasks and processor results are type parameters `α`, `β`.
- The Python task processor is a function that may raise; it is modelled as
  `proc : α → Nat → Except String β`, where the second argument is the
  0-based attempt index, so that an attempt-dependent outcome (fail then
  succeed) is expressible.  `Except.error e` models a raised exception with
  message `e`.
- Real-time effects are modelled by counting: `invocations` counts calls of
  the task processor, `sleeps` counts executions of `time.sleep(retry_delay)`.
  Wall-clock fields (`execution_time`, `start_time`, `end_time`) are omitted.
- Thread-pool concurrency is determinised to submission order; the claims
  settled here concern counts, memberships and per-worker state, all of
  which are independent of completion order.
- Python float arithmetic on `success_rate` is modelled exactly over `ℚ`.
-/

namespace AACT

/-- States of a bot, from `BotState` in `bot_manager.py`. -/
inductive BotState where
  | idle
  | active
  | error
  | completed
deriving DecidableEq

/-- Progress record of a bot, from `BotProgress` in `bot_manager.py`
(wall-clock timestamps omitted). -/
structure BotProgress (α : Type) where
  bot_id : Nat
  state : BotState := BotState.idle
  tasks_completed : Nat := 0
  tasks_failed : Nat := 0
  current_task : Option α := none
  error_message : Option String := none
deriving DecidableEq

/-- Result of one task, from `TaskResult` in `bot_manager.py`
(`execution_time` omitted: wall-clock). -/
structure TaskResult (α β : Type) where
  bot_id : Nat
  task : α
  success : Bool
  result : Option β := none
  error : Option String := none
deriving DecidableEq

/-- Trace of the retry loop of `Bot._process_single_task`: outcome value,
the `last_error` variable, and the counts of processor invocations and
`time.sleep` calls. -/
structure AttemptTrace (β : Type) where
  result : Option β
  lastError : Option String
  invocations : Nat
  sleeps : Nat
deriving DecidableEq

/-- The retry loop `for attempt in range(self.max_retries)` of
`Bot._process_single_task` (`bot_manager.py` lines 156-179), run over the
list of attempt indices, carrying the `last_error` accumulator.  A successful
call returns at once; a failing call records the error and, when
`attempt < max_retries - 1`, performs one sleep before the next attempt. -/
def attemptLoop (proc : Nat → Except String β) (max_retries : Nat) :
    List Nat → Option String → AttemptTrace β
  | [], lastError => ⟨none, lastError, 0, 0⟩
  | attempt :: rest, lastError =>
    match proc attempt with
    | Except.ok r => ⟨some r, lastError, 1, 0⟩
    | Except.error e =>
      let t := attemptLoop proc max_retries rest (some e)
      ⟨t.result, t.lastError, t.invocations + 1,
        t.sleeps + (if attempt < max_retries - 1 then 1 else 0)⟩

/-- Outcome of `Bot._process_single_task`: the returned `TaskResult`, the
updated progress record, and the invocation/sleep counts. -/
structure SingleTaskOutcome (α β : Type) where
  taskResult : TaskResult α β
  progress : BotProgress α
  invocations : Nat
  sleeps : Nat
deriving DecidableEq

/-- `Bot._process_single_task` (`bot_manager.py` lines 140-194): set the
current-task marker, run the retry loop over attempt indices
`0, …, max_retries - 1`; on success increment `tasks_completed`, on
exhaustion increment `tasks_failed` and record the last error. -/
def Bot.process_single_task (proc : α → Nat → Except String β)
    (max_retries : Nat) (prog : BotProgress α) (task : α) :
    SingleTaskOutcome α β :=
  let prog1 := { prog with current_task := some task }
  let t := attemptLoop (proc task) max_retries (List.range max_retries) none
  match t.result with
  | some r =>
    { taskResult := { bot_id := prog.bot_id, task := task, success := true,
                      result := some r, error := none },
      progress := { prog1 with tasks_completed := prog1.tasks_completed + 1 },
      invocations := t.invocations, sleeps := t.sleeps }
  | none =>
    { taskResult := { bot_id := prog.bot_id, task := task, success := false,
                      result := none, error := t.lastError },
      progress := { prog1 with
                    tasks_failed := prog1.tasks_failed + 1,
                    error_message := t.lastError },
      invocations := t.invocations, sleeps := t.sleeps }

/-- The task loop of `Bot.process_tasks` (`bot_manager.py` lines 123-125):
process each task in order, threading the progress record and collecting
one `TaskResult` per task. -/
def Bot.run_tasks (proc : α → Nat → Except String β) (max_retries : Nat) :
    List α → BotProgress α → List (TaskResult α β) × BotProgress α
  | [], prog => ([], prog)
  | task :: rest, prog =>
    let out := Bot.process_single_task proc max_retries prog task
    let rec_result := Bot.run_tasks proc max_retries rest out.progress
    (out.taskResult :: rec_result.1, rec_result.2)

/-- `Bot.process_tasks` (`bot_manager.py` lines 107-138): mark the bot
active, run all assigned tasks sequentially, then mark it completed and
clear the current-task marker. -/
def Bot.process_tasks (bot_id : Nat) (proc : α → Nat → Except String β)
    (max_retries : Nat) (tasks : List α) :
    List (TaskResult α β) × BotProgress α :=
  let run := Bot.run_tasks proc max_retries tasks
    { bot_id := bot_id, state := BotState.active }
  (run.1, { run.2 with state := BotState.completed, current_task := none })

/-- The slicing loop of `BotManager._divide_tasks` (`bot_manager.py` lines
263-271): for each of `count` remaining bots, starting at bot index `i` and
list position `start_idx`, emit the slice
`tasks[start_idx : start_idx + current_batch_size]` where the first
`remainder` bots get one extra task. -/
def BotManager.divideLoop (tasks : List α) (batch_size remainder : Nat) :
    Nat → Nat → Nat → List (List α)
  | 0, _, _ => []
  | count + 1, i, start_idx =>
    let current_batch_size := batch_size + (if i < remainder then 1 else 0)
    ((tasks.drop start_idx).take current_batch_size) ::
      BotManager.divideLoop tasks batch_size remainder count (i + 1)
        (start_idx + current_batch_size)

/-- `BotManager._divide_tasks` (`bot_manager.py` lines 246-273): an empty
task list yields `num_bots` empty batches; otherwise the tasks are sliced
with `batch_size = len(tasks) // num_bots` and
`remainder = len(tasks) % num_bots`. -/
def BotManager.divide_tasks (num_bots : Nat) (tasks : List α) : List (List α) :=
  if tasks.isEmpty then List.replicate num_bots []
  else BotManager.divideLoop tasks (tasks.length / num_bots)
    (tasks.length % num_bots) num_bots 0 0

/-- Aggregate report, the dictionary returned by
`BotManager._compile_results` (`execution_time` omitted: wall-clock).
A `failed_tasks` entry is the triple (task, error, bot_id). -/
structure Report (α β : Type) where
  total_tasks : Nat
  successful : Nat
  failed : Nat
  success_rate : ℚ
  results : List (TaskResult α β)
  bot_progress : List (BotProgress α)
  failed_tasks : List (α × Option String × Nat)
deriving DecidableEq

/-- `BotManager._compile_results` (`bot_manager.py` lines 330-364):
partition the results into successful and failed, compute the success rate
(`0` when there are no results), and attach a progress snapshot of every
bot in `self.bots`. -/
def BotManager.compile_results (bots : List (BotProgress α))
    (results : List (TaskResult α β)) : Report α β :=
  let successful := results.filter (fun r => r.success)
  let failed := results.filter (fun r => !r.success)
  { total_tasks := results.length,
    successful := successful.length,
    failed := failed.length,
    success_rate := if results.isEmpty then 0
      else (successful.length : ℚ) / (results.length : ℚ) * 100,
    results := results,
    bot_progress := bots,
    failed_tasks := failed.map (fun r => (r.task, r.error, r.bot_id)) }

/-- Mutable state of a `BotManager` (`bot_manager.py` lines 217-242):
worker count, retry cap, the bots created by the last nonempty `execute`
call, and the accumulated `all_results` list (never cleared). -/
structure BotManager (α β : Type) where
  num_bots : Nat
  max_retries : Nat
  bots : List (BotProgress α) := []
  all_results : List (TaskResult α β) := []
deriving DecidableEq

/-- State of a freshly constructed `BotManager`: no bots, no results.
The Python constructor raises `ValueError` for `num_bots <= 0`; claims about
a validly constructed manager carry the hypothesis `0 < num_bots`. -/
def BotManager.init (num_bots max_retries : Nat) : BotManager α β :=
  { num_bots := num_bots, max_retries := max_retries }

/-- Worker execution of `BotManager.execute` (`bot_manager.py` lines
296-324), determinised to submission order: bot `i` is created for batch
`i`; a bot with an empty batch is never submitted, so it keeps its initial
idle progress and contributes no results. -/
def BotManager.runBatches (proc : α → Nat → Except String β)
    (max_retries : Nat) :
    Nat → List (List α) → List (List (TaskResult α β) × BotProgress α)
  | _, [] => []
  | i, batch :: rest =>
    (if batch.isEmpty then
      (([] : List (TaskResult α β)), ({ bot_id := i } : BotProgress α))
     else Bot.process_tasks i proc max_retries batch) ::
      BotManager.runBatches proc max_retries (i + 1) rest

/-- `BotManager.execute` (`bot_manager.py` lines 275-328): an empty task
list compiles an empty-results report at once (no bots created); otherwise
the tasks are divided, one bot per batch runs its slice, the bots' results
extend the accumulated `all_results`, and the report is compiled from the
full accumulated list and the new bots. -/
def BotManager.execute (proc : α → Nat → Except String β)
    (st : BotManager α β) (tasks : List α) : BotManager α β × Report α β :=
  if tasks.isEmpty then (st, BotManager.compile_results st.bots [])
  else
    let batches := BotManager.divide_tasks st.num_bots tasks
    let runs := BotManager.runBatches proc st.max_retries 0 batches
    let new_bots := runs.map Prod.snd
    let new_results := st.all_results ++ (runs.map Prod.fst).flatten
    ({ st with bots := new_bots, all_results := new_results },
     BotManager.compile_results new_bots new_results)

/-- The slicing loop of `BotConductor.divide_pris` (`bot_conductor.py`
lines 63-67): `for i in range(0, len(pri_list), batch_size)` append
`pri_list[i : i + batch_size]`.  The fuel argument (instantiated with the
list length) only bounds the recursion; with `batch_size ≥ 1` it is never
exhausted.  (Python raises `ValueError` on step `0`; the claims assume
`batch_size > 0`.) -/
def BotConductor.chunkLoop (batch_size : Nat) : Nat → List α → List (List α)
  | 0, _ => []
  | _, [] => []
  | fuel + 1, x :: xs =>
    (x :: xs).take batch_size ::
      BotConductor.chunkLoop batch_size fuel ((x :: xs).drop batch_size)

/-- `BotConductor.divide_pris` (`bot_conductor.py` lines 49-70): an empty
list yields no batches; otherwise consecutive slices of `batch_size`. -/
def BotConductor.divide_pris (batch_size : Nat) (pri_list : List α) :
    List (List α) :=
  if pri_list.isEmpty then []
  else BotConductor.chunkLoop batch_size pri_list.length pri_list

/-- `PhoenixBot.authenticate` (`phoenix_bot.py` lines 45-74): succeeds iff
the auth manager yields a cookie; `none` also covers a raised exception,
which the method catches and turns into `False`. -/
def PhoenixBot.authenticate (cookie : Option γ) : Bool :=
  cookie.isSome

/-- One successful extraction record appended by
`PhoenixBot.extract_batch_data` (timestamp omitted: wall-clock). -/
structure ExtractRecord (δ : Type) where
  pri : String
  data : δ
  bot_id : Nat
deriving DecidableEq

/-- The per-PRI loop of `PhoenixBot.extract_batch_data` (`phoenix_bot.py`
lines 100-119): `query pri = some d` models a successful `_query_phoenix`;
`none` models both a `None` response and a raised exception, either of
which appends the PRI to the failed list. -/
def PhoenixBot.extractLoop (batch_id : Nat) (query : String → Option δ) :
    List String → List (ExtractRecord δ) × List String
  | [] => ([], [])
  | pri :: rest =>
    let rec_result := PhoenixBot.extractLoop batch_id query rest
    match query pri with
    | some d => (⟨pri, d, batch_id⟩ :: rec_result.1, rec_result.2)
    | none => (rec_result.1, pri :: rec_result.2)

/-- `PhoenixBot.extract_batch_data` (`phoenix_bot.py` lines 76-126): an
unauthenticated bot fails the whole batch, otherwise each PRI is queried in
order. -/
def PhoenixBot.extract_batch_data (batch_id : Nat) (authenticated : Bool)
    (query : String → Option δ) (pri_batch : List String) :
    List (ExtractRecord δ) × List String :=
  if !authenticated then ([], pri_batch)
  else PhoenixBot.extractLoop batch_id query pri_batch

/-- `BotConductor._process_batch` (`bot_conductor.py` lines 158-204):
authenticate the freshly created bot; on failure return no results and the
whole batch as failed; on success run `extract_batch_data`.  The second
component counts the invocations of `extract_batch_data` (0 or 1). -/
def BotConductor.process_batch (cookie : Option γ)
    (query : String → Option δ) (batch : List String) (batch_idx : Nat) :
    (List (ExtractRecord δ) × List String) × Nat :=
  if !PhoenixBot.authenticate cookie then (([], batch), 0)
  else (PhoenixBot.extract_batch_data batch_idx true query batch, 1)

/-- Result dictionary of `BotConductor.extract_data`: the early-exit error
shape (`status`, `message`, `results`, `failed`) or the completed shape
(`status`, `total_pris`, `successful`, `failed`, `results`, `failed_pris`). -/
inductive ExtractOutcome (δ : Type) where
  | error (message : String) (results : List (ExtractRecord δ))
      (failed : List String)
  | completed (total_pris successful failed_count : Nat)
      (results : List (ExtractRecord δ)) (failed_pris : List String)
deriving DecidableEq

/-- The batch-dispatch loop of `BotConductor.extract_data`
(`bot_conductor.py` lines 107-141), determinised to submission order:
each batch is processed by `process_batch` and its results and failed PRIs
are concatenated. -/
def BotConductor.runBatchJobs (cookie : Option γ)
    (query : String → Option δ) :
    Nat → List (List String) → List (ExtractRecord δ) × List String
  | _, [] => ([], [])
  | idx, b :: rest =>
    let out := BotConductor.process_batch cookie query b idx
    let rec_result := BotConductor.runBatchJobs cookie query (idx + 1) rest
    (out.1.1 ++ rec_result.1, out.1.2 ++ rec_result.2)

/-- `BotConductor.extract_data` (`bot_conductor.py` lines 72-156): divide
the PRIs into batches; when there are no batches return the error
dictionary without creating any bot, otherwise process every batch and
compile the completed summary.  The second component counts the bots
created (one per batch). -/
def BotConductor.extract_data (batch_size : Nat) (cookie : Option γ)
    (query : String → Option δ) (pri_list : List String) :
    ExtractOutcome δ × Nat :=
  let batches := BotConductor.divide_pris batch_size pri_list
  if batches.isEmpty then
    (ExtractOutcome.error "No PRIs to process" [] [], 0)
  else
    let agg := BotConductor.runBatchJobs cookie query 0 batches
    (ExtractOutcome.completed pri_list.length agg.1.length agg.2.length
      agg.1 agg.2, batches.length)

/-- The sequence of `current_batch_size` values produced by the slicing
loop of `_divide_tasks` for `count` bots starting at bot index `i`. -/
def sliceSizes (batch_size remainder : Nat) : Nat → Nat → List Nat
  | 0, _ => []
  | count + 1, i =>
    (batch_size + if i < remainder then 1 else 0) ::
      sliceSizes batch_size remainder count (i + 1)

/-! Lemmas about the retry loop. -/

/-- On a processor that fails on every attempt, the retry loop returns no
result, folds the error messages into `last_error`, invokes the processor
once per attempt index, and sleeps once per attempt index below
`max_retries - 1`. -/
theorem attemptLoop_all_fail (proc : Nat → Except String β)
    (errs : Nat → String) (hfail : ∀ n, proc n = Except.error (errs n))
    (m : Nat) (as : List Nat) (le : Option String) :
    attemptLoop proc m as le =
      ⟨none, as.foldl (fun _ a => some (errs a)) le, as.length,
       (as.filter (fun a => a < m - 1)).length⟩ := by
  induction as generalizing le with
  | nil => rfl
  | cons a rest ih =>
    simp only [attemptLoop, hfail a, ih, List.foldl_cons, List.length_cons,
      List.filter_cons]
    by_cases h : a < m - 1
    · simp [h]
    · simp [h]

/-- Folding the error recorder over `range m` keeps the last message. -/
theorem foldl_errs_range (errs : Nat → String) (m : Nat) (hm : 0 < m)
    (le : Option String) :
    (List.range m).foldl (fun _ a => some (errs a)) le
      = some (errs (m - 1)) := by
  cases m with
  | zero => omega
  | succ k => rw [List.range_succ, List.foldl_append]; simp

/-- Counting the elements of `range m` below `k ≤ m`. -/
theorem length_filter_range_lt (k m : Nat) (h : k ≤ m) :
    ((List.range m).filter (fun a => a < k)).length = k := by
  induction m with
  | zero => simp; omega
  | succ n ih =>
    rw [List.range_succ, List.filter_append]
    rcases Nat.lt_or_ge n k with hk | hk
    · have hk1 : k = n + 1 := by omega
      subst hk1
      have h1 : (List.range n).filter (fun a => decide (a < n + 1))
          = List.range n := by
        apply List.filter_eq_self.mpr
        intro a ha
        simp only [List.mem_range] at ha
        simp
        omega
      simp [h1]
    · have h2 := ih hk
      have h3 : ¬ (n < k) := by omega
      simp [h3, h2]

/-- Claim C3: on a task whose processor fails on every invocation and with
`max_retries ≥ 1`, `_process_single_task` invokes the processor exactly
`max_retries` times, sleeps `max_retries - 1` times, and returns a failed
`TaskResult` carrying the error message of the last attempt. -/
theorem claim_C3_retry_count (proc : α → Nat → Except String β)
    (errs : Nat → String) (task : α) (prog : BotProgress α) (m : Nat)
    (hfail : ∀ n, proc task n = Except.error (errs n)) (hm : 1 ≤ m) :
    (Bot.process_single_task proc m prog task).invocations = m ∧
    (Bot.process_single_task proc m prog task).sleeps = m - 1 ∧
    (Bot.process_single_task proc m prog task).taskResult.success = false ∧
    (Bot.process_single_task proc m prog task).taskResult.error
      = some (errs (m - 1)) := by
  have hA := attemptLoop_all_fail (proc task) errs hfail m (List.range m) none
  have hF := foldl_errs_range errs m (by omega) none
  have hL := length_filter_range_lt (m - 1) m (by omega)
  simp [Bot.process_single_task, hA, hF, hL]

/-- Concrete instantiation of `claim_C3_retry_count` at an always-failing
processor with `max_retries = 3`. -/
theorem claim_C3_retry_count_witness :
    (∀ n : Nat,
      (fun (_t : Nat) (k : Nat) => (Except.error (toString k) : Except String Nat)) 5 n
        = Except.error (toString n)) ∧ 1 ≤ 3 ∧
    ((Bot.process_single_task
        (fun (_t : Nat) (k : Nat) => (Except.error (toString k) : Except String Nat))
        3 { bot_id := 0 } 5).invocations = 3 ∧
     (Bot.process_single_task
        (fun (_t : Nat) (k : Nat) => (Except.error (toString k) : Except String Nat))
        3 { bot_id := 0 } 5).sleeps = 3 - 1 ∧
     (Bot.process_single_task
        (fun (_t : Nat) (k : Nat) => (Except.error (toString k) : Except String Nat))
        3 { bot_id := 0 } 5).taskResult.success = false ∧
     (Bot.process_single_task
        (fun (_t : Nat) (k : Nat) => (Except.error (toString k) : Except String Nat))
        3 { bot_id := 0 } 5).taskResult.error = some (toString (3 - 1))) :=
  ⟨fun _ => rfl, Nat.le_of_sub_eq_zero rfl,
   claim_C3_retry_count _ toString 5 { bot_id := 0 } 3 (fun _ => rfl)
     (Nat.le_of_sub_eq_zero rfl)⟩

/-- Claim C2 is false on the code: with `max_retries = 0`, the retry loop
`for attempt in range(0)` never runs, so a processor that would succeed is
never invoked and the task is nevertheless marked failed. -/
theorem claim_C2_counterexample :
    (Bot.process_single_task
        (fun (_t : Nat) (_k : Nat) => (Except.ok 99 : Except String Nat)) 0
        { bot_id := 0 } 7).invocations = 0 ∧
    (Bot.process_single_task
        (fun (_t : Nat) (_k : Nat) => (Except.ok 99 : Except String Nat)) 0
        { bot_id := 0 } 7).taskResult.success = false := by
  exact ⟨rfl, rfl⟩

/-- Claim C2 amended: with `max_retries = 0` the processing function is
invoked zero times — `max_retries` counts total attempts, not retries after
a first attempt — and the task is unconditionally marked failed with no
error message. -/
theorem claim_C2_amended (proc : α → Nat → Except String β)
    (prog : BotProgress α) (task : α) :
    (Bot.process_single_task proc 0 prog task).invocations = 0 ∧
    (Bot.process_single_task proc 0 prog task).taskResult.success = false ∧
    (Bot.process_single_task proc 0 prog task).taskResult.error = none :=
  ⟨rfl, rfl, rfl⟩

/-! Lemmas about task partitioning. -/

/-- Sum of the slice sizes over a window of `count` bots. -/
theorem sliceSizes_sum (bs rem : Nat) :
    ∀ count i, (sliceSizes bs rem count i).sum
      = count * bs + (min rem (i + count) - min rem i) := by
  intro count
  induction count with
  | zero => intro i; simp [sliceSizes]
  | succ n ih =>
    intro i
    simp only [sliceSizes, List.sum_cons, ih (i + 1)]
    have hmul : (n + 1) * bs = n * bs + bs := by ring
    rw [hmul]
    by_cases h : i < rem
    · simp only [if_pos h]
      generalize n * bs = nb
      omega
    · simp only [if_neg h]
      generalize n * bs = nb
      omega

/-- The slicing loop emits one slice per bot. -/
theorem divideLoop_length (ts : List α) (bs rem : Nat) :
    ∀ count i s, (BotManager.divideLoop ts bs rem count i s).length = count := by
  intro count
  induction count with
  | zero => intro i s; rfl
  | succ n ih => intro i s; simp [BotManager.divideLoop, ih]

/-- When the window of slice sizes covers the rest of the list, the slices
concatenate back to that rest. -/
theorem divideLoop_flatten (ts : List α) (bs rem : Nat) :
    ∀ count i s, ts.length ≤ s + (sliceSizes bs rem count i).sum →
      (BotManager.divideLoop ts bs rem count i s).flatten = ts.drop s := by
  intro count
  induction count with
  | zero =>
    intro i s h
    simp only [BotManager.divideLoop, List.flatten_nil]
    symm
    apply List.drop_eq_nil_of_le
    simpa using h
  | succ n ih =>
    intro i s h
    simp only [sliceSizes, List.sum_cons] at h
    simp only [BotManager.divideLoop, List.flatten_cons]
    rw [ih (i + 1) (s + (bs + if i < rem then 1 else 0))
      (by generalize (if i < rem then 1 else 0 : Nat) = c at h ⊢; omega)]
    rw [← List.drop_drop]
    exact List.take_append_drop _ _

/-- When the window of slice sizes exactly covers the rest of the list,
slice `j` has exactly its prescribed size. -/
theorem divideLoop_getD_length (ts : List α) (bs rem : Nat) :
    ∀ count i s j, ts.length = s + (sliceSizes bs rem count i).sum →
      j < count →
      ((BotManager.divideLoop ts bs rem count i s).getD j []).length
        = bs + if i + j < rem then 1 else 0 := by
  intro count
  induction count with
  | zero => intro i s j _ hj; omega
  | succ n ih =>
    intro i s j h hj
    simp only [sliceSizes, List.sum_cons] at h
    cases j with
    | zero =>
      simp only [BotManager.divideLoop, List.getD_cons_zero, Nat.add_zero]
      rw [List.length_take, List.length_drop]
      generalize (if i < rem then 1 else 0 : Nat) = c at h ⊢
      omega
    | succ k =>
      simp only [BotManager.divideLoop, List.getD_cons_succ]
      have h2 : ts.length = s + (bs + if i < rem then 1 else 0)
          + (sliceSizes bs rem n (i + 1)).sum := by
        generalize (if i < rem then 1 else 0 : Nat) = c at h ⊢
        omega
      rw [ih (i + 1) (s + (bs + if i < rem then 1 else 0)) k h2 (by omega)]
      have h4 : i + 1 + k = i + (k + 1) := by omega
      rw [h4]

/-- Flattening replicated empty lists gives the empty list. -/
theorem flatten_replicate_nil (n : Nat) :
    (List.replicate n ([] : List α)).flatten = [] := by
  induction n with
  | zero => rfl
  | succ k ih => simp [List.replicate_succ, ih]

/-- Every position of a replicated-empty-list list reads back empty. -/
theorem getD_replicate_nil (n j : Nat) :
    (List.replicate n ([] : List α)).getD j [] = [] := by
  induction n generalizing j with
  | zero => cases j <;> rfl
  | succ k ih =>
    cases j with
    | zero => rfl
    | succ m => simp only [List.replicate_succ, List.getD_cons_succ, ih m]

/-- Claim C1: `_divide_tasks` returns exactly `W` contiguous slices in
original order whose concatenation is the input, where the first
`N mod W` slices have length `N div W + 1` and the rest have length
`N div W`. -/
theorem claim_C1_partition (tasks : List α) (W : Nat) (hW : 0 < W) :
    (BotManager.divide_tasks W tasks).length = W ∧
    (BotManager.divide_tasks W tasks).flatten = tasks ∧
    ∀ i : Nat, i < W →
      ((BotManager.divide_tasks W tasks).getD i []).length
        = if i < tasks.length % W then tasks.length / W + 1
          else tasks.length / W := by
  by_cases he : tasks.isEmpty
  · have ht : tasks = [] := List.isEmpty_iff.mp he
    subst ht
    rw [show BotManager.divide_tasks W ([] : List α)
          = List.replicate W [] from rfl]
    refine ⟨List.length_replicate _ _, flatten_replicate_nil W, ?_⟩
    intro i hi
    rw [getD_replicate_nil]
    simp [Nat.zero_div, Nat.zero_mod]
  · have hne : ¬ tasks.isEmpty = true := he
    rw [BotManager.divide_tasks, if_neg hne]
    have hsum : (sliceSizes (tasks.length / W) (tasks.length % W) W 0).sum
        = tasks.length := by
      rw [sliceSizes_sum]
      have hdm := Nat.div_add_mod tasks.length W
      have hrem : tasks.length % W < W := Nat.mod_lt _ hW
      generalize tasks.length / W = bs at *
      generalize tasks.length % W = rem at *
      generalize W * bs = P at *
      omega
    refine ⟨divideLoop_length _ _ _ W 0 0, ?_, ?_⟩
    · rw [divideLoop_flatten _ _ _ W 0 0 (by rw [hsum]; omega)]
      exact List.drop_zero _
    · intro i hi
      rw [divideLoop_getD_length tasks (tasks.length / W) (tasks.length % W)
        W 0 0 i (by rw [hsum]; omega) hi]
      simp only [Nat.zero_add]
      by_cases h : i < tasks.length % W
      · simp [h]
      · simp [h]

/-- Concrete instantiation of `claim_C1_partition`: 10 tasks over 4
workers give slices of sizes 3, 3, 2, 2. -/
theorem claim_C1_partition_witness :
    0 < 4 ∧
    ((BotManager.divide_tasks 4 ([0, 1, 2, 3, 4, 5, 6, 7, 8, 9] : List Nat)).length = 4 ∧
     (BotManager.divide_tasks 4 ([0, 1, 2, 3, 4, 5, 6, 7, 8, 9] : List Nat)).flatten
       = [0, 1, 2, 3, 4, 5, 6, 7, 8, 9] ∧
     ∀ i : Nat, i < 4 →
       ((BotManager.divide_tasks 4 ([0, 1, 2, 3, 4, 5, 6, 7, 8, 9] : List Nat)).getD i []).length
         = if i < ([0, 1, 2, 3, 4, 5, 6, 7, 8, 9] : List Nat).length % 4
           then ([0, 1, 2, 3, 4, 5, 6, 7, 8, 9] : List Nat).length / 4 + 1
           else ([0, 1, 2, 3, 4, 5, 6, 7, 8, 9] : List Nat).length / 4) :=
  ⟨Nat.succ_pos 3,
   claim_C1_partition ([0, 1, 2, 3, 4, 5, 6, 7, 8, 9] : List Nat) 4 (Nat.succ_pos 3)⟩

/-! Lemmas about the batch partitioner. -/

/-- The slicing loop does nothing on an empty list. -/
theorem chunkLoop_nil (bs : Nat) :
    ∀ fuel, BotConductor.chunkLoop bs fuel ([] : List α) = [] := by
  intro fuel
  cases fuel <;> rfl

/-- The slicing loop on a nonempty list emits at least one chunk. -/
theorem chunkLoop_ne_nil (bs : Nat) :
    ∀ fuel (l : List α), l ≠ [] → l.length ≤ fuel →
      BotConductor.chunkLoop bs fuel l ≠ [] := by
  intro fuel l hne hlen
  cases fuel with
  | zero =>
    cases l with
    | nil => exact absurd rfl hne
    | cons x xs => simp at hlen
  | succ f =>
    cases l with
    | nil => exact absurd rfl hne
    | cons x xs => simp [BotConductor.chunkLoop]

/-- The chunks emitted by the slicing loop concatenate back to the list. -/
theorem chunkLoop_flatten (bs : Nat) (hbs : 0 < bs) :
    ∀ fuel (l : List α), l.length ≤ fuel →
      (BotConductor.chunkLoop bs fuel l).flatten = l := by
  intro fuel
  induction fuel with
  | zero =>
    intro l hlen
    have : l = [] := List.eq_nil_of_length_eq_zero (by omega)
    subst this
    rfl
  | succ f ih =>
    intro l hlen
    cases l with
    | nil => rfl
    | cons x xs =>
      simp only [BotConductor.chunkLoop, List.flatten_cons]
      rw [ih ((x :: xs).drop bs)
        (by simp only [List.length_drop] at *; omega)]
      exact List.take_append_drop _ _

/-- The slicing loop emits `ceil(length / bs)` chunks, in the form
`(length - 1) / bs + 1` for a nonempty list. -/
theorem chunkLoop_length (bs : Nat) (hbs : 0 < bs) :
    ∀ fuel (l : List α), l.length ≤ fuel → l ≠ [] →
      (BotConductor.chunkLoop bs fuel l).length = (l.length - 1) / bs + 1 := by
  intro fuel
  induction fuel with
  | zero =>
    intro l hlen hne
    cases l with
    | nil => exact absurd rfl hne
    | cons x xs => simp at hlen
  | succ f ih =>
    intro l hlen hne
    cases l with
    | nil => exact absurd rfl hne
    | cons x xs =>
      simp only [BotConductor.chunkLoop, List.length_cons]
      by_cases hsmall : (x :: xs).length ≤ bs
      · have hdrop : (x :: xs).drop bs = [] := by
          apply List.drop_eq_nil_of_le
          omega
        rw [hdrop, chunkLoop_nil]
        have h0 : ((x :: xs).length - 1) / bs = 0 :=
          Nat.div_eq_of_lt (by simp only [List.length_cons] at *; omega)
        simp only [List.length_cons] at h0
        simp only [List.length_nil, List.length_cons]
        omega
      · have hdne : (x :: xs).drop bs ≠ [] := by
          intro hEq
          have := congrArg List.length hEq
          simp only [List.length_drop, List.length_nil] at this
          simp only [List.length_cons] at *
          omega
        rw [ih ((x :: xs).drop bs)
          (by simp only [List.length_drop] at *; omega) hdne]
        simp only [List.length_drop, List.length_cons] at *
        have hsplit : xs.length + 1 - 1 = (xs.length + 1 - bs - 1) + bs := by
          omega
        rw [hsplit, Nat.add_div_right _ hbs]

/-- Every chunk emitted by the slicing loop has at most `bs` elements. -/
theorem chunkLoop_mem_length (bs : Nat) :
    ∀ fuel (l : List α) c, c ∈ BotConductor.chunkLoop bs fuel l →
      c.length ≤ bs := by
  intro fuel
  induction fuel with
  | zero => intro l c hc; cases l <;> simp [BotConductor.chunkLoop] at hc
  | succ f ih =>
    intro l c hc
    cases l with
    | nil => simp [BotConductor.chunkLoop] at hc
    | cons x xs =>
      simp only [BotConductor.chunkLoop, List.mem_cons] at hc
      rcases hc with hc | hc
      · subst hc
        simp [List.length_take]
      · exact ih _ c hc

/-- Every chunk but the last one has exactly `bs` elements. -/
theorem chunkLoop_dropLast_length (bs : Nat) (hbs : 0 < bs) :
    ∀ fuel (l : List α), l.length ≤ fuel →
      ∀ c ∈ (BotConductor.chunkLoop bs fuel l).dropLast, c.length = bs := by
  intro fuel
  induction fuel with
  | zero =>
    intro l hlen c hc
    have : l = [] := List.eq_nil_of_length_eq_zero (by omega)
    subst this
    simp [BotConductor.chunkLoop] at hc
  | succ f ih =>
    intro l hlen c hc
    cases l with
    | nil => simp [BotConductor.chunkLoop] at hc
    | cons x xs =>
      by_cases hsmall : (x :: xs).length ≤ bs
      · have hdrop : (x :: xs).drop bs = [] := by
          apply List.drop_eq_nil_of_le
          omega
        simp [BotConductor.chunkLoop, hdrop, chunkLoop_nil] at hc
      · have hdne : (x :: xs).drop bs ≠ [] := by
          intro hEq
          have := congrArg List.length hEq
          simp only [List.length_drop, List.length_nil] at this
          simp only [List.length_cons] at *
          omega
        have hrne := chunkLoop_ne_nil bs f ((x :: xs).drop bs) hdne
          (by simp only [List.length_drop] at *; omega)
        obtain ⟨y, ys, hys⟩ := List.exists_cons_of_ne_nil hrne
        simp only [BotConductor.chunkLoop, hys, List.dropLast_cons₂,
          List.mem_cons] at hc
        rcases hc with hc | hc
        · subst hc
          simp only [List.length_take, List.length_drop, List.length_cons] at *
          omega
        · exact ih ((x :: xs).drop bs)
            (by simp only [List.length_drop] at *; omega) c
            (by rw [hys]; exact hc)

/-- Claim C7: for every list and every `batch_size > 0`, `divide_pris`
splits the list into consecutive chunks in original order, each of size at
most `batch_size`, producing `ceil(L / B)` chunks for a list of length `L`,
all of size `B` except possibly the last; empty input yields an empty list
of chunks. -/
theorem claim_C7_divide_pris (l : List α) (bs : Nat) (hbs : 0 < bs) :
    BotConductor.divide_pris bs ([] : List α) = [] ∧
    (BotConductor.divide_pris bs l).flatten = l ∧
    (BotConductor.divide_pris bs l).length = (l.length + bs - 1) / bs ∧
    (∀ c ∈ BotConductor.divide_pris bs l, c.length ≤ bs) ∧
    (∀ c ∈ (BotConductor.divide_pris bs l).dropLast, c.length = bs) := by
  refine ⟨rfl, ?_, ?_, ?_, ?_⟩
  · by_cases he : l.isEmpty
    · have : l = [] := List.isEmpty_iff.mp he
      subst this
      rfl
    · rw [BotConductor.divide_pris, if_neg he]
      exact chunkLoop_flatten bs hbs l.length l (Nat.le_refl _)
  · by_cases he : l.isEmpty
    · have : l = [] := List.isEmpty_iff.mp he
      subst this
      simp only [BotConductor.divide_pris, List.isEmpty_nil, if_true,
        List.length_nil]
      exact (Nat.div_eq_of_lt (by omega)).symm
    · have hne : l ≠ [] := by
        intro h
        rw [h] at he
        exact he rfl
      rw [BotConductor.divide_pris, if_neg he,
        chunkLoop_length bs hbs l.length l (Nat.le_refl _) hne]
      have hx : l.length + bs - 1 = (l.length - 1) + bs := by
        have : l.length ≠ 0 := fun h => hne (List.eq_nil_of_length_eq_zero h)
        omega
      rw [hx, Nat.add_div_right _ hbs]
  · intro c hc
    by_cases he : l.isEmpty
    · have : l = [] := List.isEmpty_iff.mp he
      subst this
      simp [BotConductor.divide_pris] at hc
    · rw [BotConductor.divide_pris, if_neg he] at hc
      exact chunkLoop_mem_length bs l.length l c hc
  · intro c hc
    by_cases he : l.isEmpty
    · have : l = [] := List.isEmpty_iff.mp he
      subst this
      simp [BotConductor.divide_pris] at hc
    · rw [BotConductor.divide_pris, if_neg he] at hc
      exact chunkLoop_dropLast_length bs hbs l.length l (Nat.le_refl _) c hc

/-- Concrete instantiation of `claim_C7_divide_pris`: eight items with
batch size three give chunks `[1,2,3]`, `[4,5,6]`, `[7,8]`. -/
theorem claim_C7_divide_pris_witness :
    0 < 3 ∧
    (BotConductor.divide_pris 3 ([] : List Nat) = [] ∧
     (BotConductor.divide_pris 3 ([1, 2, 3, 4, 5, 6, 7, 8] : List Nat)).flatten
       = [1, 2, 3, 4, 5, 6, 7, 8] ∧
     (BotConductor.divide_pris 3 ([1, 2, 3, 4, 5, 6, 7, 8] : List Nat)).length
       = (([1, 2, 3, 4, 5, 6, 7, 8] : List Nat).length + 3 - 1) / 3 ∧
     (∀ c ∈ BotConductor.divide_pris 3 ([1, 2, 3, 4, 5, 6, 7, 8] : List Nat),
        c.length ≤ 3) ∧
     (∀ c ∈ (BotConductor.divide_pris 3 ([1, 2, 3, 4, 5, 6, 7, 8] : List Nat)).dropLast,
        c.length = 3)) :=
  ⟨Nat.succ_pos 2,
   claim_C7_divide_pris ([1, 2, 3, 4, 5, 6, 7, 8] : List Nat) 3 (Nat.succ_pos 2)⟩

/-! Lemmas about worker bookkeeping. -/

/-- One task moves exactly one of the two counters by one, keeps the bot
identity and state, and echoes the task in its `TaskResult`. -/
theorem process_single_task_progress (proc : α → Nat → Except String β)
    (m : Nat) (prog : BotProgress α) (task : α) :
    (Bot.process_single_task proc m prog task).progress.tasks_completed
      + (Bot.process_single_task proc m prog task).progress.tasks_failed
      = prog.tasks_completed + prog.tasks_failed + 1 ∧
    (Bot.process_single_task proc m prog task).progress.bot_id = prog.bot_id ∧
    (Bot.process_single_task proc m prog task).progress.state = prog.state ∧
    (Bot.process_single_task proc m prog task).taskResult.task = task := by
  cases h : (attemptLoop (proc task) m (List.range m) none).result with
  | none => simp [Bot.process_single_task, h]; omega
  | some r => simp [Bot.process_single_task, h]; omega

/-- The sequential task loop yields one result per task (echoing the tasks
in order), advances the counters by the slice size, and keeps identity and
state. -/
theorem run_tasks_facts (proc : α → Nat → Except String β) (m : Nat) :
    ∀ (tasks : List α) (prog : BotProgress α),
      (Bot.run_tasks proc m tasks prog).1.length = tasks.length ∧
      (Bot.run_tasks proc m tasks prog).1.map (fun r => r.task) = tasks ∧
      ((Bot.run_tasks proc m tasks prog).2.tasks_completed
        + (Bot.run_tasks proc m tasks prog).2.tasks_failed
        = prog.tasks_completed + prog.tasks_failed + tasks.length) ∧
      (Bot.run_tasks proc m tasks prog).2.bot_id = prog.bot_id ∧
      (Bot.run_tasks proc m tasks prog).2.state = prog.state := by
  intro tasks
  induction tasks with
  | nil => intro prog; exact ⟨rfl, rfl, rfl, rfl, rfl⟩
  | cons t rest ih =>
    intro prog
    have hs := process_single_task_progress proc m prog t
    have hr := ih (Bot.process_single_task proc m prog t).progress
    refine ⟨?_, ?_, ?_, ?_, ?_⟩
    · simp only [Bot.run_tasks, List.length_cons, hr.1]
    · simp only [Bot.run_tasks, List.map_cons, hr.2.1, hs.2.2.2]
    · simp only [Bot.run_tasks]
      have := hr.2.2.1
      have := hs.1
      simp only [List.length_cons]
      omega
    · simp only [Bot.run_tasks, hr.2.2.2.1, hs.2.1]
    · simp only [Bot.run_tasks, hr.2.2.2.2, hs.2.2.1]

/-- `process_tasks` facts: one result per assigned task in order, final
counters summing to the slice size, the bot's own id, and state
`completed`. -/
theorem process_tasks_facts (bot_id : Nat) (proc : α → Nat → Except String β)
    (m : Nat) (tasks : List α) :
    (Bot.process_tasks bot_id proc m tasks).1.length = tasks.length ∧
    (Bot.process_tasks bot_id proc m tasks).1.map (fun r => r.task) = tasks ∧
    ((Bot.process_tasks bot_id proc m tasks).2.tasks_completed
      + (Bot.process_tasks bot_id proc m tasks).2.tasks_failed
      = tasks.length) ∧
    (Bot.process_tasks bot_id proc m tasks).2.bot_id = bot_id ∧
    (Bot.process_tasks bot_id proc m tasks).2.state = BotState.completed := by
  have h := run_tasks_facts proc m tasks
    { bot_id := bot_id, state := BotState.active }
  refine ⟨?_, ?_, ?_, ?_, ?_⟩
  · simpa [Bot.process_tasks] using h.1
  · simpa [Bot.process_tasks] using h.2.1
  · have := h.2.2.1
    simp only [Bot.process_tasks]
    simp at this
    omega
  · have := h.2.2.2.1
    simp only [Bot.process_tasks]
    simpa using this
  · simp [Bot.process_tasks]

/-- The per-batch worker loop: every batch's tasks reappear, in order,
exactly once in the concatenated results. -/
theorem runBatches_results_tasks (proc : α → Nat → Except String β)
    (m : Nat) :
    ∀ (batches : List (List α)) (i0 : Nat),
      ((BotManager.runBatches proc m i0 batches).map Prod.fst).flatten.map
          (fun r => r.task)
        = batches.flatten := by
  intro batches
  induction batches with
  | nil => intro i0; rfl
  | cons b rest ih =>
    intro i0
    by_cases hb : b.isEmpty
    · have hbe : b = [] := List.isEmpty_iff.mp hb
      subst hbe
      simp only [BotManager.runBatches, if_pos rfl, List.map_cons,
        List.flatten_cons]
      simp [ih (i0 + 1)]
    · simp only [BotManager.runBatches, if_neg hb, List.map_cons,
        List.flatten_cons, List.map_append]
      rw [ih (i0 + 1), (process_tasks_facts i0 proc m b).2.1]

/-- The per-batch worker loop: across all bots the two counters sum to the
total number of distributed tasks. -/
theorem runBatches_counts_sum (proc : α → Nat → Except String β) (m : Nat) :
    ∀ (batches : List (List α)) (i0 : Nat),
      ((BotManager.runBatches proc m i0 batches).map
          (fun e => e.2.tasks_completed + e.2.tasks_failed)).sum
        = batches.flatten.length := by
  intro batches
  induction batches with
  | nil => intro i0; rfl
  | cons b rest ih =>
    intro i0
    by_cases hb : b.isEmpty
    · have hbe : b = [] := List.isEmpty_iff.mp hb
      subst hbe
      simp only [BotManager.runBatches, if_pos rfl, List.map_cons,
        List.sum_cons, List.flatten_cons, List.nil_append]
      simp [ih (i0 + 1)]
    · simp only [BotManager.runBatches, if_neg hb, List.map_cons,
        List.sum_cons, List.flatten_cons, List.length_append]
      rw [ih (i0 + 1), (process_tasks_facts i0 proc m b).2.2.1]

/-- Per-bot facts of the worker loop at index `j`: the bot's id, its
counter total, the idle untouched state of a bot with an empty batch, and
the completed state of a bot with a nonempty batch. -/
theorem runBatches_getD (proc : α → Nat → Except String β) (m : Nat) :
    ∀ (batches : List (List α)) (i0 j : Nat)
      (d : List (TaskResult α β) × BotProgress α), j < batches.length →
      (((BotManager.runBatches proc m i0 batches).getD j d).2.bot_id
          = i0 + j) ∧
      (((BotManager.runBatches proc m i0 batches).getD j d).2.tasks_completed
          + ((BotManager.runBatches proc m i0 batches).getD j d).2.tasks_failed
          = (batches.getD j []).length) ∧
      (batches.getD j [] = [] →
        ((BotManager.runBatches proc m i0 batches).getD j d).2.state
            = BotState.idle ∧
        ((BotManager.runBatches proc m i0 batches).getD j d).2.tasks_completed
            = 0 ∧
        ((BotManager.runBatches proc m i0 batches).getD j d).2.tasks_failed
            = 0 ∧
        ((BotManager.runBatches proc m i0 batches).getD j d).1 = []) ∧
      (batches.getD j [] ≠ [] →
        ((BotManager.runBatches proc m i0 batches).getD j d).2.state
            = BotState.completed) := by
  intro batches
  induction batches with
  | nil => intro i0 j d hj; simp at hj
  | cons b rest ih =>
    intro i0 j d hj
    cases j with
    | zero =>
      simp only [BotManager.runBatches, List.getD_cons_zero, Nat.add_zero]
      by_cases hb : b.isEmpty
      · have hbe : b = [] := List.isEmpty_iff.mp hb
        subst hbe
        simp
      · have hbn : b ≠ [] := by
          intro h
          rw [h] at hb
          exact hb rfl
        have hp := process_tasks_facts i0 proc m b
        simp only [if_neg hb]
        exact ⟨hp.2.2.2.1, hp.2.2.1, fun h => absurd h hbn,
          fun _ => hp.2.2.2.2⟩
    | succ k =>
      simp only [BotManager.runBatches, List.getD_cons_succ]
      have := ih (i0 + 1) k d (by simp at hj; omega)
      refine ⟨?_, this.2.1, this.2.2.1, this.2.2.2⟩
      rw [this.1]
      omega

/-- The worker loop creates one bot per batch. -/
theorem runBatches_length (proc : α → Nat → Except String β) (m : Nat) :
    ∀ (batches : List (List α)) (i0 : Nat),
      (BotManager.runBatches proc m i0 batches).length = batches.length := by
  intro batches
  induction batches with
  | nil => intro i0; rfl
  | cons b rest ih => intro i0; simp [BotManager.runBatches, ih]

/-- Slice sizes over the full window sum to the task count. -/
theorem sliceSizes_sum_full (n W : Nat) (hW : 0 < W) :
    (sliceSizes (n / W) (n % W) W 0).sum = n := by
  rw [sliceSizes_sum]
  have hdm := Nat.div_add_mod n W
  have hrem : n % W < W := Nat.mod_lt _ hW
  generalize n / W = bs at *
  generalize n % W = rem at *
  generalize W * bs = P at *
  omega

/-- `_divide_tasks` always returns one batch per bot. -/
theorem divide_tasks_length (W : Nat) (tasks : List α) :
    (BotManager.divide_tasks W tasks).length = W := by
  by_cases he : tasks.isEmpty
  · rw [BotManager.divide_tasks, if_pos he]
    exact List.length_replicate _ _
  · rw [BotManager.divide_tasks, if_neg he]
    exact divideLoop_length _ _ _ W 0 0

/-- `_divide_tasks` batches concatenate back to the input. -/
theorem divide_tasks_flatten (W : Nat) (tasks : List α) (hW : 0 < W) :
    (BotManager.divide_tasks W tasks).flatten = tasks := by
  by_cases he : tasks.isEmpty
  · have : tasks = [] := List.isEmpty_iff.mp he
    subst this
    rw [show BotManager.divide_tasks W ([] : List α)
          = List.replicate W [] from rfl]
    exact flatten_replicate_nil W
  · rw [BotManager.divide_tasks, if_neg he]
    rw [divideLoop_flatten _ _ _ W 0 0
      (by rw [sliceSizes_sum_full _ _ hW]; omega)]
    exact List.drop_zero _

/-- Reading a mapped list at an index with a mapped default. -/
theorem getD_map_eq (f : α → β) :
    ∀ (l : List α) (j : Nat) (d : α), (l.map f).getD j (f d) = f (l.getD j d) := by
  intro l
  induction l with
  | nil => intro j d; cases j <;> rfl
  | cons x xs ih =>
    intro j d
    cases j with
    | zero => rfl
    | succ k => simp only [List.map_cons, List.getD_cons_succ, ih]

/-- Claim C4: in one `execute` call on nonempty input, every submitted
task yields exactly one `TaskResult` (the fresh results echo the submitted
tasks), each worker's `tasks_completed + tasks_failed` equals the size of
its assigned slice, and the counters summed over all workers equal the
number of submitted tasks. -/
theorem claim_C4_accounting (proc : α → Nat → Except String β)
    (st : BotManager α β) (tasks : List α) (hW : 0 < st.num_bots)
    (ht : tasks ≠ []) :
    ((BotManager.execute proc st tasks).1.all_results.length
        = st.all_results.length + tasks.length) ∧
    (((BotManager.execute proc st tasks).1.all_results.drop
          st.all_results.length).map (fun r => r.task) = tasks) ∧
    ((BotManager.execute proc st tasks).1.bots.length = st.num_bots) ∧
    (∀ j, j < st.num_bots →
      ((BotManager.execute proc st tasks).1.bots.getD j { bot_id := 0 }).tasks_completed
          + ((BotManager.execute proc st tasks).1.bots.getD j { bot_id := 0 }).tasks_failed
        = ((BotManager.divide_tasks st.num_bots tasks).getD j []).length) ∧
    (((BotManager.execute proc st tasks).1.bots.map
        (fun p => p.tasks_completed + p.tasks_failed)).sum = tasks.length) := by
  have hne : ¬ tasks.isEmpty = true := by
    intro h
    exact ht (List.isEmpty_iff.mp h)
  have hflat := divide_tasks_flatten st.num_bots tasks hW
  have hlen := divide_tasks_length st.num_bots tasks
  have htasks := runBatches_results_tasks proc st.max_retries
    (BotManager.divide_tasks st.num_bots tasks) 0
  rw [hflat] at htasks
  have hrlen : (((BotManager.runBatches proc st.max_retries 0
      (BotManager.divide_tasks st.num_bots tasks)).map Prod.fst).flatten).length
      = tasks.length := by
    have h2 := congrArg List.length htasks
    rwa [List.length_map] at h2
  refine ⟨?_, ?_, ?_, ?_, ?_⟩
  · simp only [BotManager.execute, if_neg hne]
    simp only [List.length_append, hrlen]
  · simp only [BotManager.execute, if_neg hne]
    rw [List.drop_left, htasks]
  · simp only [BotManager.execute, if_neg hne]
    simp [divide_tasks_length,
      runBatches_length proc st.max_retries _ 0]
  · intro j hj
    simp only [BotManager.execute, if_neg hne]
    have hd := runBatches_getD proc st.max_retries
      (BotManager.divide_tasks st.num_bots tasks) 0 j
      (([] : List (TaskResult α β)), ({ bot_id := 0 } : BotProgress α))
      (by rw [hlen]; exact hj)
    rw [getD_map_eq Prod.snd _ j
      (([] : List (TaskResult α β)), ({ bot_id := 0 } : BotProgress α))]
    exact hd.2.1
  · simp only [BotManager.execute, if_neg hne]
    rw [List.map_map]
    have hsum := runBatches_counts_sum proc st.max_retries
      (BotManager.divide_tasks st.num_bots tasks) 0
    rw [hflat] at hsum
    rw [show ((fun (p : BotProgress α) => p.tasks_completed + p.tasks_failed)
            ∘ Prod.snd)
          = (fun (e : List (TaskResult α β) × BotProgress α) =>
              e.2.tasks_completed + e.2.tasks_failed) from rfl]
    exact hsum

/-- Concrete instantiation of `claim_C4_accounting`: three tasks over two
workers. -/
theorem claim_C4_accounting_witness :
    0 < (BotManager.init 2 1 : BotManager Nat Nat).num_bots ∧
    ([10, 20, 30] : List Nat) ≠ [] ∧
    (((BotManager.execute (fun (t : Nat) (_ : Nat) => (Except.ok (t * 2) : Except String Nat))
          (BotManager.init 2 1) [10, 20, 30]).1.all_results.length
        = (BotManager.init 2 1 : BotManager Nat Nat).all_results.length
          + ([10, 20, 30] : List Nat).length) ∧
     (((BotManager.execute (fun (t : Nat) (_ : Nat) => (Except.ok (t * 2) : Except String Nat))
          (BotManager.init 2 1) [10, 20, 30]).1.all_results.drop
            (BotManager.init 2 1 : BotManager Nat Nat).all_results.length).map
          (fun r => r.task) = [10, 20, 30]) ∧
     ((BotManager.execute (fun (t : Nat) (_ : Nat) => (Except.ok (t * 2) : Except String Nat))
          (BotManager.init 2 1) [10, 20, 30]).1.bots.length
        = (BotManager.init 2 1 : BotManager Nat Nat).num_bots) ∧
     (∀ j, j < (BotManager.init 2 1 : BotManager Nat Nat).num_bots →
       ((BotManager.execute (fun (t : Nat) (_ : Nat) => (Except.ok (t * 2) : Except String Nat))
            (BotManager.init 2 1) [10, 20, 30]).1.bots.getD j { bot_id := 0 }).tasks_completed
           + ((BotManager.execute (fun (t : Nat) (_ : Nat) => (Except.ok (t * 2) : Except String Nat))
            (BotManager.init 2 1) [10, 20, 30]).1.bots.getD j { bot_id := 0 }).tasks_failed
         = ((BotManager.divide_tasks
              (BotManager.init 2 1 : BotManager Nat Nat).num_bots
              ([10, 20, 30] : List Nat)).getD j []).length) ∧
     (((BotManager.execute (fun (t : Nat) (_ : Nat) => (Except.ok (t * 2) : Except String Nat))
          (BotManager.init 2 1) [10, 20, 30]).1.bots.map
          (fun p => p.tasks_completed + p.tasks_failed)).sum
        = ([10, 20, 30] : List Nat).length)) :=
  ⟨Nat.succ_pos 1, by decide,
   claim_C4_accounting
     (fun (t : Nat) (_ : Nat) => (Except.ok (t * 2) : Except String Nat))
     (BotManager.init 2 1) [10, 20, 30] (Nat.succ_pos 1) (by decide)⟩

/-- Claim C5: on a freshly constructed manager, `execute []` reports zero
totals and zero success rate without spawning workers (the state is
unchanged), and in general the success rate is `successful / total * 100`,
zero when the total is zero. -/
theorem claim_C5_zero_tasks (proc : α → Nat → Except String β) (W m : Nat)
    (hW : 0 < W) :
    ((BotManager.execute proc (BotManager.init W m) ([] : List α)).2.total_tasks = 0 ∧
     (BotManager.execute proc (BotManager.init W m) ([] : List α)).2.successful = 0 ∧
     (BotManager.execute proc (BotManager.init W m) ([] : List α)).2.failed = 0 ∧
     (BotManager.execute proc (BotManager.init W m) ([] : List α)).2.success_rate = 0 ∧
     (BotManager.execute proc (BotManager.init W m) ([] : List α)).1
       = BotManager.init W m) ∧
    (∀ (bots : List (BotProgress α)) (results : List (TaskResult α β)),
      (BotManager.compile_results bots results).success_rate
        = if (BotManager.compile_results bots results).total_tasks = 0 then 0
          else ((BotManager.compile_results bots results).successful : ℚ)
            / ((BotManager.compile_results bots results).total_tasks : ℚ)
            * 100) := by
  constructor
  · exact ⟨rfl, rfl, rfl, rfl, rfl⟩
  · intro bots results
    simp only [BotManager.compile_results]
    by_cases hr : results.isEmpty
    · have : results = [] := List.isEmpty_iff.mp hr
      subst this
      simp
    · have hlen : results.length ≠ 0 := by
        intro h
        rw [List.eq_nil_of_length_eq_zero h] at hr
        exact hr rfl
      simp [hr, hlen]

/-- Concrete instantiation of `claim_C5_zero_tasks` with three workers. -/
theorem claim_C5_zero_tasks_witness :
    0 < 3 ∧
    (((BotManager.execute (fun (t : Nat) (_ : Nat) => (Except.ok t : Except String Nat))
          (BotManager.init 3 2) ([] : List Nat)).2.total_tasks = 0 ∧
      (BotManager.execute (fun (t : Nat) (_ : Nat) => (Except.ok t : Except String Nat))
          (BotManager.init 3 2) ([] : List Nat)).2.successful = 0 ∧
      (BotManager.execute (fun (t : Nat) (_ : Nat) => (Except.ok t : Except String Nat))
          (BotManager.init 3 2) ([] : List Nat)).2.failed = 0 ∧
      (BotManager.execute (fun (t : Nat) (_ : Nat) => (Except.ok t : Except String Nat))
          (BotManager.init 3 2) ([] : List Nat)).2.success_rate = 0 ∧
      (BotManager.execute (fun (t : Nat) (_ : Nat) => (Except.ok t : Except String Nat))
          (BotManager.init 3 2) ([] : List Nat)).1 = BotManager.init 3 2) ∧
     (∀ (bots : List (BotProgress Nat)) (results : List (TaskResult Nat Nat)),
       (BotManager.compile_results bots results).success_rate
         = if (BotManager.compile_results bots results).total_tasks = 0 then 0
           else ((BotManager.compile_results bots results).successful : ℚ)
             / ((BotManager.compile_results bots results).total_tasks : ℚ)
             * 100)) :=
  ⟨Nat.succ_pos 2,
   claim_C5_zero_tasks
     (fun (t : Nat) (_ : Nat) => (Except.ok t : Except String Nat)) 3 2
     (Nat.succ_pos 2)⟩

/-- Claim C6 fails on the code: with two workers and a single task only
one worker is spawned (exactly one nonempty slice), yet the report carries
progress snapshots of both constructed workers, the second still idle. -/
theorem claim_C6_counterexample :
    ((BotManager.execute (fun (t : Nat) (_ : Nat) => (Except.ok t : Except String Nat))
        (BotManager.init 2 1) [42]).2.bot_progress.length = 2) ∧
    (((BotManager.divide_tasks 2 ([42] : List Nat)).filter
        (fun b => !b.isEmpty)).length = 1) ∧
    (((BotManager.execute (fun (t : Nat) (_ : Nat) => (Except.ok t : Except String Nat))
        (BotManager.init 2 1) [42]).2.bot_progress.getD 1 { bot_id := 0 }).state
      = BotState.idle) := by
  decide

/-- Claim C6 amended: the report's `bot_progress` holds one snapshot per
constructed worker — exactly `num_bots` entries, in bot order — including
workers assigned an empty slice, which were never spawned and appear idle
with zero counters; workers with a nonempty slice appear completed. -/
theorem claim_C6_amended (proc : α → Nat → Except String β)
    (st : BotManager α β) (tasks : List α) (hW : 0 < st.num_bots)
    (ht : tasks ≠ []) :
    ((BotManager.execute proc st tasks).2.bot_progress.length
        = st.num_bots) ∧
    (∀ j, j < st.num_bots →
      (((BotManager.execute proc st tasks).2.bot_progress.getD j
          { bot_id := 0 }).bot_id = j) ∧
      ((BotManager.divide_tasks st.num_bots tasks).getD j [] = [] →
        ((BotManager.execute proc st tasks).2.bot_progress.getD j
            { bot_id := 0 }).state = BotState.idle ∧
        ((BotManager.execute proc st tasks).2.bot_progress.getD j
            { bot_id := 0 }).tasks_completed = 0 ∧
        ((BotManager.execute proc st tasks).2.bot_progress.getD j
            { bot_id := 0 }).tasks_failed = 0) ∧
      ((BotManager.divide_tasks st.num_bots tasks).getD j [] ≠ [] →
        ((BotManager.execute proc st tasks).2.bot_progress.getD j
            { bot_id := 0 }).state = BotState.completed)) := by
  have hne : ¬ tasks.isEmpty = true := by
    intro h
    exact ht (List.isEmpty_iff.mp h)
  have hlen := divide_tasks_length st.num_bots tasks
  constructor
  · simp only [BotManager.execute, if_neg hne, BotManager.compile_results]
    simp [runBatches_length, divide_tasks_length]
  · intro j hj
    have hd := runBatches_getD proc st.max_retries
      (BotManager.divide_tasks st.num_bots tasks) 0 j
      (([] : List (TaskResult α β)), ({ bot_id := 0 } : BotProgress α))
      (by rw [hlen]; exact hj)
    simp only [BotManager.execute, if_neg hne, BotManager.compile_results]
    rw [getD_map_eq Prod.snd _ j
      (([] : List (TaskResult α β)), ({ bot_id := 0 } : BotProgress α))]
    refine ⟨by rw [hd.1]; omega, fun h => ?_, fun h => hd.2.2.2 h⟩
    have h0 := hd.2.2.1 h
    exact ⟨h0.1, h0.2.1, h0.2.2.1⟩

/-- Concrete instantiation of `claim_C6_amended` at two workers and one
task. -/
theorem claim_C6_amended_witness :
    0 < (BotManager.init 2 1 : BotManager Nat Nat).num_bots ∧
    ([42] : List Nat) ≠ [] ∧
    (((BotManager.execute (fun (t : Nat) (_ : Nat) => (Except.ok t : Except String Nat))
          (BotManager.init 2 1) [42]).2.bot_progress.length
        = (BotManager.init 2 1 : BotManager Nat Nat).num_bots) ∧
     (∀ j, j < (BotManager.init 2 1 : BotManager Nat Nat).num_bots →
       (((BotManager.execute (fun (t : Nat) (_ : Nat) => (Except.ok t : Except String Nat))
            (BotManager.init 2 1) [42]).2.bot_progress.getD j
            { bot_id := 0 }).bot_id = j) ∧
       ((BotManager.divide_tasks (BotManager.init 2 1 : BotManager Nat Nat).num_bots
            ([42] : List Nat)).getD j [] = [] →
         ((BotManager.execute (fun (t : Nat) (_ : Nat) => (Except.ok t : Except String Nat))
              (BotManager.init 2 1) [42]).2.bot_progress.getD j
              { bot_id := 0 }).state = BotState.idle ∧
         ((BotManager.execute (fun (t : Nat) (_ : Nat) => (Except.ok t : Except String Nat))
              (BotManager.init 2 1) [42]).2.bot_progress.getD j
              { bot_id := 0 }).tasks_completed = 0 ∧
         ((BotManager.execute (fun (t : Nat) (_ : Nat) => (Except.ok t : Except String Nat))
              (BotManager.init 2 1) [42]).2.bot_progress.getD j
              { bot_id := 0 }).tasks_failed = 0) ∧
       ((BotManager.divide_tasks (BotManager.init 2 1 : BotManager Nat Nat).num_bots
            ([42] : List Nat)).getD j [] ≠ [] →
         ((BotManager.execute (fun (t : Nat) (_ : Nat) => (Except.ok t : Except String Nat))
              (BotManager.init 2 1) [42]).2.bot_progress.getD j
              { bot_id := 0 }).state = BotState.completed))) :=
  ⟨Nat.succ_pos 1, by decide,
   claim_C6_amended
     (fun (t : Nat) (_ : Nat) => (Except.ok t : Except String Nat))
     (BotManager.init 2 1) [42] (Nat.succ_pos 1) (by decide)⟩

/-- Projection facts of a nonempty `execute` call: bot count and retry cap
are unchanged, the report's results are the accumulated `all_results`, the
report's total counts them, and the accumulated list grows by exactly this
run's results. -/
theorem execute_proj (proc : α → Nat → Except String β)
    (st : BotManager α β) (tasks : List α) (ht : ¬ tasks.isEmpty = true) :
    (BotManager.execute proc st tasks).1.num_bots = st.num_bots ∧
    (BotManager.execute proc st tasks).1.max_retries = st.max_retries ∧
    (BotManager.execute proc st tasks).2.results
      = (BotManager.execute proc st tasks).1.all_results ∧
    (BotManager.execute proc st tasks).2.total_tasks
      = (BotManager.execute proc st tasks).1.all_results.length ∧
    (BotManager.execute proc st tasks).1.all_results
      = st.all_results ++
        ((BotManager.runBatches proc st.max_retries 0
          (BotManager.divide_tasks st.num_bots tasks)).map Prod.fst).flatten := by
  refine ⟨?_, ?_, ?_, ?_, ?_⟩ <;>
    simp [BotManager.execute, ht, BotManager.compile_results]

/-- The results of one nonempty run number exactly the submitted tasks. -/
theorem run_results_length (proc : α → Nat → Except String β)
    (m W : Nat) (tasks : List α) (hW : 0 < W) :
    ((BotManager.runBatches proc m 0
        (BotManager.divide_tasks W tasks)).map Prod.fst).flatten.length
      = tasks.length := by
  have ht := runBatches_results_tasks proc m
    (BotManager.divide_tasks W tasks) 0
  rw [divide_tasks_flatten W tasks hW] at ht
  have h2 := congrArg List.length ht
  rwa [List.length_map] at h2

/-- Claim C9: results accumulate across `execute` calls on the same
manager — after `execute T1` then `execute T2` (both nonempty) the second
report's `total_tasks` is `|T1| + |T2|` and its results list contains
every `TaskResult` of the first run. -/
theorem claim_C9_results_accumulate (proc : α → Nat → Except String β)
    (W m : Nat) (T1 T2 : List α) (hW : 0 < W) (h1 : T1 ≠ []) (h2 : T2 ≠ []) :
    ((BotManager.execute proc
        (BotManager.execute proc (BotManager.init W m) T1).1 T2).2.total_tasks
      = T1.length + T2.length) ∧
    (∀ r ∈ (BotManager.execute proc (BotManager.init W m) T1).2.results,
      r ∈ (BotManager.execute proc
        (BotManager.execute proc (BotManager.init W m) T1).1 T2).2.results) := by
  have hne1 : ¬ T1.isEmpty = true := by
    intro h
    exact h1 (List.isEmpty_iff.mp h)
  have hne2 : ¬ T2.isEmpty = true := by
    intro h
    exact h2 (List.isEmpty_iff.mp h)
  have hp1 := execute_proj proc (BotManager.init W m) T1 hne1
  have hp2 := execute_proj proc
    (BotManager.execute proc (BotManager.init W m) T1).1 T2 hne2
  have hlen1 : (BotManager.execute proc (BotManager.init W m) T1).1.all_results.length
      = T1.length := by
    rw [hp1.2.2.2.2]
    have : (BotManager.init W m : BotManager α β).all_results = [] := rfl
    rw [this, List.nil_append]
    exact run_results_length proc m W T1 hW
  constructor
  · rw [hp2.2.2.2.1, hp2.2.2.2.2, List.length_append, hlen1, hp1.1, hp1.2.1]
    rw [show (BotManager.init W m : BotManager α β).num_bots = W from rfl,
      show (BotManager.init W m : BotManager α β).max_retries = m from rfl]
    rw [run_results_length proc m W T2 hW]
  · intro r hr
    rw [hp2.2.2.1, hp2.2.2.2.2]
    rw [hp1.2.2.1] at hr
    exact List.mem_append_left _ hr

/-- Concrete instantiation of `claim_C9_results_accumulate`: run `[1]`
then `[2, 3]` on a two-worker manager. -/
theorem claim_C9_results_accumulate_witness :
    0 < 2 ∧ ([1] : List Nat) ≠ [] ∧ ([2, 3] : List Nat) ≠ [] ∧
    (((BotManager.execute (fun (t : Nat) (_ : Nat) => (Except.ok t : Except String Nat))
        (BotManager.execute (fun (t : Nat) (_ : Nat) => (Except.ok t : Except String Nat))
          (BotManager.init 2 1) [1]).1 [2, 3]).2.total_tasks
      = ([1] : List Nat).length + ([2, 3] : List Nat).length) ∧
    (∀ r ∈ (BotManager.execute (fun (t : Nat) (_ : Nat) => (Except.ok t : Except String Nat))
        (BotManager.init 2 1) [1]).2.results,
      r ∈ (BotManager.execute (fun (t : Nat) (_ : Nat) => (Except.ok t : Except String Nat))
        (BotManager.execute (fun (t : Nat) (_ : Nat) => (Except.ok t : Except String Nat))
          (BotManager.init 2 1) [1]).1 [2, 3]).2.results)) :=
  ⟨Nat.succ_pos 1, by decide, by decide,
   claim_C9_results_accumulate
     (fun (t : Nat) (_ : Nat) => (Except.ok t : Except String Nat)) 2 1
     [1] [2, 3] (Nat.succ_pos 1) (by decide) (by decide)⟩

/-- Claim C8: when the bot's `authenticate()` returns false for a batch,
`_process_batch` returns no results and the whole batch as failed, and
never invokes `extract_batch_data` (invocation count 0). -/
theorem claim_C8_auth_failure (cookie : Option γ)
    (query : String → Option δ) (batch : List String) (batch_idx : Nat)
    (hauth : PhoenixBot.authenticate cookie = false) :
    BotConductor.process_batch cookie query batch batch_idx
      = (([], batch), 0) := by
  simp [BotConductor.process_batch, hauth]

/-- Concrete instantiation of `claim_C8_auth_failure` with no cookie and a
two-PRI batch. -/
theorem claim_C8_auth_failure_witness :
    PhoenixBot.authenticate (none : Option Unit) = false ∧
    BotConductor.process_batch (none : Option Unit)
        (fun _ => (none : Option Nat)) ["PRI1", "PRI2"] 0
      = (([], ["PRI1", "PRI2"]), 0) :=
  ⟨rfl,
   claim_C8_auth_failure (none : Option Unit)
     (fun _ => (none : Option Nat)) ["PRI1", "PRI2"] 0 rfl⟩

/-- Claim C10: `extract_data` on an empty PRI list returns the error
dictionary — status `error`, message `No PRIs to process`, empty results
and failed lists — and creates no bot (bot count 0). -/
theorem claim_C10_empty_input (batch_size : Nat) (cookie : Option γ)
    (query : String → Option δ) :
    BotConductor.extract_data batch_size cookie query []
      = (ExtractOutcome.error "No PRIs to process" [] [], 0) := rfl

end AACT
